import Mathlib

/-!
Verification of the content-management core: the `ContentState` value object,
the `Content` entity, the `DefaultContentPermissions` policy, the
`InMemoryContentRepository` store and the `ContentService` orchestrator,
shallowly embedded from the TypeScript sources.  JavaScript `Date` values are
modelled as natural-number timestamps passed explicitly (`now`), `Result<T,E>`
as an inductive with `ok`/`err`, the error objects (`new Error(...)`) as the
error taxonomy `DomainError`, and JS `Map`/`Set` as insertion-ordered lists.
-/

namespace CMS

/-- The four content lifecycle states (`ContentStateType` in
`value-objects/ContentState.ts`); the tag `private` is a Lean keyword so the
constructor is spelled `priv`. -/
inductive ContentState where
  | draft
  | published
  | priv
  | archived
deriving DecidableEq, Repr, Fintype

/-- `Result<T, E>` from `types.ts`: `{ ok: true; value }` or `{ ok: false; error }`. -/
inductive Result (T E : Type) where
  | ok (value : T)
  | err (error : E)
deriving DecidableEq, Repr

/-- Error taxonomy: each `new Error(message)` of the source is mapped to the
spec's error class it realises (for example `"Content not found"` to
`notFound`, both length messages to `invalidInput`, the transition message
citing both tags to `illegalTransition`). -/
inductive DomainError where
  | invalidInput
  | illegalTransition (src tgt : ContentState)
  | notFound
  | permissionDenied
  | invalidOperation
deriving DecidableEq, Repr

namespace ContentState

/-- `isDraft()`. -/
def isDraft : ContentState → Bool
  | .draft => true
  | _ => false

/-- `isPublished()`. -/
def isPublished : ContentState → Bool
  | .published => true
  | _ => false

/-- `isPrivate()`. -/
def isPrivate : ContentState → Bool
  | .priv => true
  | _ => false

/-- `isArchived()`. -/
def isArchived : ContentState → Bool
  | .archived => true
  | _ => false

/-- `canTransitionTo(newState)`: the single forbidden edge is
archived to published; everything else is allowed. -/
def canTransitionTo (current target : ContentState) : Bool :=
  if current == .archived && target == .published then false else true

/-- `equals(other)`: structural equality of the tags. -/
def equals (a b : ContentState) : Bool := a == b

end ContentState

/-- The `Content` entity's fields (`entities/Content.ts`).  `publishedAt` and
`updatedAt` are optional timestamps. -/
structure Content where
  id : String
  title : String
  body : String
  authorId : String
  state : ContentState
  excerpt : String
  publishedAt : Option Nat
  updatedAt : Option Nat
deriving DecidableEq, Repr

/-- `ContentProps`, the input of `Content.create`: `excerpt`, `publishedAt`
and `updatedAt` are optional. -/
structure ContentProps where
  id : String
  title : String
  body : String
  authorId : String
  state : ContentState
  excerpt : Option String := none
  publishedAt : Option Nat := none
  updatedAt : Option Nat := none
deriving DecidableEq, Repr

/-- JS `a || b` where `a` is an optional string: an absent or empty string
falls through to the default. -/
def jsOrString (a : Option String) (b : String) : String :=
  match a with
  | some s => if s == "" then b else s
  | none => b

namespace Content

/-- `Content.create(props)`: validates title length (5 to 100) and body
length (at least 100), auto-generates the excerpt from the body's first 150
characters when `props.excerpt` is falsy, defaults `updatedAt` to `now`
(the `new Date()` of the source). -/
def create (props : ContentProps) (now : Nat) : Result Content DomainError :=
  if props.title.length < 5 || props.title.length > 100 then
    .err .invalidInput
  else if props.body.length < 100 then
    .err .invalidInput
  else
    .ok {
      id := props.id
      title := props.title
      body := props.body
      authorId := props.authorId
      state := props.state
      excerpt := jsOrString props.excerpt (props.body.take 150)
      publishedAt := props.publishedAt
      updatedAt := some (props.updatedAt.getD now)
    }

/-- `updateTitle(newTitle)`. -/
def updateTitle (c : Content) (newTitle : String) (now : Nat) :
    Result Content DomainError :=
  if newTitle.length < 5 || newTitle.length > 100 then
    .err .invalidInput
  else
    .ok { c with title := newTitle, updatedAt := some now }

/-- `updateBody(newBody)`: the excerpt is regenerated from the new body
exactly when the current excerpt equals the first 150 characters of the old
body (`substring(0, 150)` is `String.take 150`). -/
def updateBody (c : Content) (newBody : String) (now : Nat) :
    Result Content DomainError :=
  if newBody.length < 100 then
    .err .invalidInput
  else
    .ok { c with
      body := newBody
      excerpt := if c.excerpt == c.body.take 150 then newBody.take 150 else c.excerpt
      updatedAt := some now }

/-- `updateExcerpt(newExcerpt)`: never fails. -/
def updateExcerpt (c : Content) (newExcerpt : String) (now : Nat) :
    Result Content DomainError :=
  .ok { c with excerpt := newExcerpt, updatedAt := some now }

/-- `changeState(newState)`: fails when the transition is illegal; stamps
`publishedAt` only when entering published while it is unset (`!this.publishedAt`
is true exactly on `undefined`, every `Date` object being truthy). -/
def changeState (c : Content) (newState : ContentState) (now : Nat) :
    Result Content DomainError :=
  if !(c.state.canTransitionTo newState) then
    .err (.illegalTransition c.state newState)
  else
    .ok { c with
      state := newState
      publishedAt :=
        if newState.isPublished && c.publishedAt.isNone then some now
        else c.publishedAt
      updatedAt := some now }

/-- `publish()`. -/
def publish (c : Content) (now : Nat) : Result Content DomainError :=
  c.changeState .published now

/-- `unpublish()`. -/
def unpublish (c : Content) (now : Nat) : Result Content DomainError :=
  c.changeState .priv now

/-- `archive()`. -/
def archive (c : Content) (now : Nat) : Result Content DomainError :=
  c.changeState .archived now

/-- `isOwnedBy(userId)`. -/
def isOwnedBy (c : Content) (userId : String) : Bool :=
  c.authorId == userId

end Content

namespace DefaultContentPermissions

/-- `canEdit(content, userId, userRole)` from `ContentPermissions.ts`. -/
def canEdit (content : Content) (userId userRole : String) : Bool :=
  if userRole == "Author" && content.isOwnedBy userId then true
  else if userRole == "Editor" || userRole == "Admin" then true
  else false

/-- `canDelete(content, userId, userRole)` from `ContentPermissions.ts`. -/
def canDelete (content : Content) (userId userRole : String) : Bool :=
  if userRole == "Admin" then true
  else if userRole == "Author" && content.isOwnedBy userId &&
      !(content.state.isPublished) then true
  else if userRole == "Editor" && !(content.state.isPublished) then true
  else false

/-- `canPublish(content, userId, userRole)` from `ContentPermissions.ts`. -/
def canPublish (content : Content) (userId userRole : String) : Bool :=
  if userRole == "Author" && content.isOwnedBy userId then true
  else if userRole == "Editor" || userRole == "Admin" then true
  else false

end DefaultContentPermissions

/-- The in-memory repository's state: `contents` models the insertion-ordered
JS `Map<string, Content>` (keys are the contents' own ids), `deleted` the
`Set<string>` of tombstones. -/
structure InMemoryContentRepository where
  contents : List Content
  deleted : List String
deriving DecidableEq, Repr

namespace InMemoryContentRepository

/-- `this.contents.get(id)`: the stored record for an id, ignoring tombstones. -/
def getStored (r : InMemoryContentRepository) (id : String) : Option Content :=
  r.contents.find? (fun c => c.id == id)

/-- `findById(id)`: null-success on a tombstoned or absent id, never an error. -/
def findById (r : InMemoryContentRepository) (id : String) :
    Result (Option Content) DomainError :=
  if r.deleted.contains id then .ok none else .ok (r.getStored id)

/-- `save(content)`: `Map.set` keyed by the content's id — replaces in place
when the key exists (keeping its insertion position), appends otherwise.  The
source always returns `ok(undefined)`, so only the state update is modelled. -/
def save (r : InMemoryContentRepository) (c : Content) : InMemoryContentRepository :=
  { r with contents :=
      if r.contents.any (fun x => x.id == c.id) then
        r.contents.map (fun x => if x.id == c.id then c else x)
      else
        r.contents ++ [c] }

/-- `Set.add(id)` on the tombstone set (membership-preserving model). -/
def addDeleted (l : List String) (id : String) : List String :=
  if l.contains id then l else l ++ [id]

/-- `softDelete(id)`: `NotFound` when the map has no record, `InvalidOperation`
unless its state is published, else adds the tombstone. -/
def softDelete (r : InMemoryContentRepository) (id : String) :
    Result Unit DomainError × InMemoryContentRepository :=
  match r.getStored id with
  | none => (.err .notFound, r)
  | some content =>
    if !(content.state.isPublished) then (.err .invalidOperation, r)
    else (.ok (), { r with deleted := addDeleted r.deleted id })

/-- `delete(id)`: `NotFound` when the map has no record, `InvalidOperation`
when its state is published, else removes the record from the map. -/
def delete (r : InMemoryContentRepository) (id : String) :
    Result Unit DomainError × InMemoryContentRepository :=
  match r.getStored id with
  | none => (.err .notFound, r)
  | some content =>
    if content.state.isPublished then (.err .invalidOperation, r)
    else (.ok (), { r with contents := r.contents.filter (fun x => !(x.id == id)) })

/-- `findPublished()` with no criteria (the path `findFeatured` uses):
non-tombstoned records whose state is published, in map insertion order. -/
def findPublishedAll (r : InMemoryContentRepository) : List Content :=
  (r.contents.filter (fun c => !(r.deleted.contains c.id))).filter
    (fun c => c.state.isPublished)

/-- The sort key of `findFeatured`:
`content.getPublishedAt()?.getTime() || 0`. -/
def featKey (c : Content) : Nat := c.publishedAt.getD 0

/-- The comparator `(a, b) => bTime - aTime` of `findFeatured` as a relation:
`a` may precede `b` when `b`'s key is at most `a`'s (descending order). -/
def featRel (a b : Content) : Prop := featKey b ≤ featKey a

instance : DecidableRel featRel := fun a b =>
  inferInstanceAs (Decidable (featKey b ≤ featKey a))

instance : IsTotal Content featRel :=
  ⟨fun a b => Nat.le_total (featKey b) (featKey a)⟩

instance : IsTrans Content featRel :=
  ⟨fun _ _ _ hab hbc => Nat.le_trans hbc hab⟩

/-- `findFeatured()`: the published non-deleted records, stably sorted by
`publishedAt` descending (missing timestamps keyed 0), then `slice(0, 5)`. -/
def findFeatured (r : InMemoryContentRepository) : List Content :=
  (r.findPublishedAll.insertionSort featRel).take 5

/-- `countFeatured()`. -/
def countFeatured (r : InMemoryContentRepository) : Nat :=
  r.findFeatured.length

/-- `exists(id)` (`exists` is a Lean keyword): present in the map and not
tombstoned. -/
def existsId (r : InMemoryContentRepository) (id : String) : Bool :=
  r.contents.any (fun c => c.id == id) && !(r.deleted.contains id)

/-- Folding `save` over a list of contents (a sequence of later saves). -/
def saveAll (r : InMemoryContentRepository) (cs : List Content) :
    InMemoryContentRepository :=
  cs.foldl save r

end InMemoryContentRepository

/-- The `updates` argument of `ContentService.updateContent`:
`{ title?: string; body?: string; excerpt?: string }`. -/
structure ContentUpdates where
  title : Option String := none
  body : Option String := none
  excerpt : Option String := none
deriving DecidableEq, Repr

namespace ContentService

open InMemoryContentRepository

/-- One optional field update of `updateContent`: `if (updates.x) { ... }` —
JS string truthiness skips both an absent and an empty-string field; a present
non-empty field runs the entity mutator and aborts on its failure. -/
def applyOptField (step : Content → String → Result Content DomainError)
    (field : Option String) (c : Content) : Result Content DomainError :=
  match field with
  | some s => if s == "" then .ok c else step c s
  | none => .ok c

/-- The field-update pipeline of `updateContent`, in the source's fixed order
title, then body, then excerpt, short-circuiting on the first failure. -/
def applyUpdates (c : Content) (u : ContentUpdates) (now : Nat) :
    Result Content DomainError :=
  match applyOptField (fun c s => c.updateTitle s now) u.title c with
  | .err e => .err e
  | .ok c1 =>
    match applyOptField (fun c s => c.updateBody s now) u.body c1 with
    | .err e => .err e
    | .ok c2 => applyOptField (fun c s => c.updateExcerpt s now) u.excerpt c2

/-- `ContentService.updateContent(contentId, updates, userId, userRole)` with
the container-bound `DefaultContentPermissions` and `InMemoryContentRepository`:
lookup, single `canEdit` check, the three optional field updates in order, then
one `save` of the final entity.  Returns the result together with the
repository state after the call. -/
def updateContent (r : InMemoryContentRepository) (contentId : String)
    (u : ContentUpdates) (userId userRole : String) (now : Nat) :
    Result Content DomainError × InMemoryContentRepository :=
  match r.findById contentId with
  | .err e => (.err e, r)
  | .ok none => (.err .notFound, r)
  | .ok (some content) =>
    if !(DefaultContentPermissions.canEdit content userId userRole) then
      (.err .permissionDenied, r)
    else
      match applyUpdates content u now with
      | .err e => (.err e, r)
      | .ok c => (.ok c, r.save c)

end ContentService

/-- Drop an optional string field when it is the empty string (the value JS
truthiness makes indistinguishable from an absent field). -/
def dropEmptyField (o : Option String) : Option String :=
  match o with
  | some s => if s == "" then none else some s
  | none => none

/-- `ContentUpdates` with every empty-string field dropped. -/
def dropEmpty (u : ContentUpdates) : ContentUpdates :=
  ⟨dropEmptyField u.title, dropEmptyField u.body, dropEmptyField u.excerpt⟩

/-- A 120-character body (meets the 100-character minimum). -/
def demoBody : String :=
  String.mk (List.replicate 120 'x')

/-- A second valid body, 130 characters. -/
def demoBody2 : String :=
  String.mk (List.replicate 130 'y')

/-- A draft content owned by `user-1`, with the auto-derived excerpt. -/
def demoDraft : Content :=
  { id := "c1", title := "Draft Content", body := demoBody,
    authorId := "user-1", state := .draft,
    excerpt := demoBody.take 150, publishedAt := none, updatedAt := some 1 }

/-- A published content owned by `user-1`. -/
def demoPublished : Content :=
  { id := "c2", title := "Live Content", body := demoBody,
    authorId := "user-1", state := .published,
    excerpt := demoBody.take 150, publishedAt := some 5, updatedAt := some 5 }

/-- A repository holding the draft and the published demo contents. -/
def demoRepo : InMemoryContentRepository :=
  { contents := [demoDraft, demoPublished], deleted := [] }

/-- `demoDraft` after a successful `updateTitle "Better Title"` at time 7. -/
def demoDraftRetitled : Content :=
  { demoDraft with title := "Better Title", updatedAt := some 7 }

/-- `demoDraft` after a successful `publish` at time 4. -/
def demoDraftPublished4 : Content :=
  { demoDraft with state := .published, publishedAt := some 4, updatedAt := some 4 }

/-- One `changeState` call where a failure leaves the caller-held instance
untouched (the entity never mutates in place, so the caller keeps `c`). -/
def changeStateOrKeep (c : Content) (s : ContentState) (now : Nat) : Content :=
  match c.changeState s now with
  | .ok c' => c'
  | .err _ => c

/-- A sequence of `changeState` calls (for example publish/unpublish/publish
cycles), each applied to the outcome of the previous one. -/
def chainChangeState (c : Content) (l : List (ContentState × Nat)) : Content :=
  l.foldl (fun acc p => changeStateOrKeep acc p.1 p.2) c

/-- Creation props with a 2-character title (invalid). -/
def demoBadProps : ContentProps :=
  { id := "c", title := "Hi", body := demoBody, authorId := "u", state := .draft }

/-- Creation props with a 13-character title and 120-character body (valid). -/
def demoGoodProps : ContentProps :=
  { id := "c1", title := "Draft Content", body := demoBody,
    authorId := "user-1", state := .draft }

lemma isPublished_iff_eq :
    ∀ s : ContentState, s.isPublished = true ↔ s = .published := by
  decide

lemma isPublished_false_iff_ne :
    ∀ s : ContentState, s.isPublished = false ↔ s ≠ .published := by
  decide

/-- C2. For every ordered pair of states (a, b) drawn from draft, published,
private, archived: `canTransitionTo` returns false exactly when a is archived
and b is published, and returns true for every other ordered pair, self-loops
included. -/
theorem canTransitionTo_false_iff :
    ∀ a b : ContentState,
      (a.canTransitionTo b = false ↔ a = .archived ∧ b = .published) := by
  decide

/-- C6. `canDelete` returns true exactly for: the Admin role unconditionally;
the Author role when the caller owns the content and it is not published; the
Editor role when it is not published.  Every other combination is false, so in
particular an Editor can never delete published content. -/
theorem canDelete_iff :
    ∀ (c : Content) (userId userRole : String),
      (DefaultContentPermissions.canDelete c userId userRole = true ↔
        (userRole = "Admin" ∨
         (userRole = "Author" ∧ c.isOwnedBy userId = true ∧ c.state ≠ .published) ∨
         (userRole = "Editor" ∧ c.state ≠ .published))) := by
  intro c userId userRole
  unfold DefaultContentPermissions.canDelete
  rcases hpub : c.state.isPublished with _ | _ <;>
    rcases hadm : (userRole == "Admin") with _ | _ <;>
    rcases haut : (userRole == "Author") with _ | _ <;>
    rcases hedi : (userRole == "Editor") with _ | _ <;>
    rcases hown : c.isOwnedBy userId with _ | _ <;>
      simp_all [beq_iff_eq, isPublished_false_iff_ne, isPublished_iff_eq]

/-- C4. `Content.create` succeeds exactly when the title length lies between
5 and 100 inclusive and the body length is at least 100; outside those bounds
it fails with `InvalidInput` and produces no instance. -/
theorem content_create_validates (props : ContentProps) (now : Nat) :
    ((∃ c, Content.create props now = Result.ok c) ↔
      (5 ≤ props.title.length ∧ props.title.length ≤ 100 ∧
        100 ≤ props.body.length)) ∧
    ((props.title.length < 5 ∨ 100 < props.title.length ∨
        props.body.length < 100) →
      Content.create props now = Result.err DomainError.invalidInput) := by
  unfold Content.create
  simp only [Bool.or_eq_true, decide_eq_true_eq]
  split_ifs with h1 h2
  · refine ⟨⟨?_, ?_⟩, fun _ => rfl⟩
    · rintro ⟨c, hc⟩
      exact absurd hc (by simp)
    · rintro ⟨ha, hb, _⟩
      omega
  · refine ⟨⟨?_, ?_⟩, fun _ => rfl⟩
    · rintro ⟨c, hc⟩
      exact absurd hc (by simp)
    · rintro ⟨_, _, hb⟩
      omega
  · refine ⟨⟨fun _ => by omega, fun _ => ⟨_, rfl⟩⟩, fun h => by omega⟩

/-- Witness for C4: a 2-character title is rejected with `InvalidInput`, and a
13-character title with a 120-character body is accepted. -/
lemma changeState_ok_publishedAt {c : Content} {s : ContentState} {now : Nat}
    {c' : Content} (h : c.changeState s now = Result.ok c') :
    c'.publishedAt =
      if s.isPublished && c.publishedAt.isNone then some now
      else c.publishedAt := by
  unfold Content.changeState at h
  split at h
  · exact absurd h (by simp)
  · cases h
    rfl

lemma changeStateOrKeep_preserves_publishedAt {c : Content} {t : Nat}
    (h : c.publishedAt = some t) (s : ContentState) (now : Nat) :
    (changeStateOrKeep c s now).publishedAt = some t := by
  unfold changeStateOrKeep
  cases hcs : c.changeState s now with
  | ok c' =>
    rw [changeState_ok_publishedAt hcs, h]
    simp
  | err e => exact h

/-- C3. `publishedAt`, once set, is preserved by every later `changeState`
call across any sequence of transitions (failed calls leaving the caller-held
instance untouched); when it is unset, a successful `changeState` stamps it
with the current time exactly when the target state is published. -/
theorem publishedAt_set_once :
    (∀ (c : Content) (t : Nat) (l : List (ContentState × Nat)),
      c.publishedAt = some t → (chainChangeState c l).publishedAt = some t) ∧
    (∀ (c : Content) (s : ContentState) (now : Nat) (c' : Content),
      c.publishedAt = none → c.changeState s now = Result.ok c' →
      c'.publishedAt = (if s.isPublished then some now else none)) := by
  constructor
  · intro c t l
    induction l generalizing c with
    | nil => exact fun h => h
    | cons p l ih =>
      intro h
      exact ih _ (changeStateOrKeep_preserves_publishedAt h p.1 p.2)
  · intro c s now c' hnone hok
    rw [changeState_ok_publishedAt hok, hnone]
    cases s <;> simp [ContentState.isPublished]

/-- Witness for C3: the publish timestamp 5 of `demoPublished` survives an
unpublish/publish/unpublish/publish cycle, and publishing the unstamped
`demoDraft` at time 4 stamps exactly 4. -/
theorem publishedAt_set_once_witness :
    (chainChangeState demoPublished
      [(.priv, 6), (.published, 7), (.priv, 8), (.published, 9)]).publishedAt =
        some 5 ∧
    demoDraftPublished4.publishedAt =
      (if ContentState.isPublished .published then some 4 else none) :=
  ⟨publishedAt_set_once.1 demoPublished 5 _ (by rfl),
   publishedAt_set_once.2 demoDraft .published 4 demoDraftPublished4
     (by rfl) (by rfl)⟩

/-- C7. `updateBody` succeeds exactly on bodies of at least 100 characters,
failing with `InvalidInput` below that; on success the excerpt is regenerated
from the first 150 characters of the new body precisely when the current
excerpt equals the first 150 characters of the old body, and is kept verbatim
otherwise. -/
theorem updateBody_excerpt_rule (c : Content) (newBody : String) (now : Nat) :
    (100 ≤ newBody.length →
      ∃ c', c.updateBody newBody now = Result.ok c' ∧
        c'.excerpt =
          (if c.excerpt = c.body.take 150 then newBody.take 150 else c.excerpt) ∧
        c'.body = newBody) ∧
    (newBody.length < 100 →
      c.updateBody newBody now = Result.err DomainError.invalidInput) := by
  unfold Content.updateBody
  constructor
  · intro h
    rw [if_neg (by omega)]
    refine ⟨_, rfl, ?_, rfl⟩
    simp [beq_iff_eq]
  · intro h
    rw [if_pos h]

set_option maxRecDepth 8192 in
/-- Witness for C7: `demoDraft` carries the auto-derived excerpt, so a new
130-character body regenerates the excerpt; a 4-character body is rejected. -/
theorem updateBody_excerpt_rule_witness :
    (∃ c', demoDraft.updateBody demoBody2 3 = Result.ok c' ∧
      c'.excerpt =
        (if demoDraft.excerpt = demoDraft.body.take 150 then demoBody2.take 150
         else demoDraft.excerpt) ∧
      c'.body = demoBody2) ∧
    demoDraft.updateBody "tiny" 3 = Result.err DomainError.invalidInput :=
  ⟨(updateBody_excerpt_rule demoDraft demoBody2 3).1 (by decide),
   (updateBody_excerpt_rule demoDraft "tiny" 3).2 (by decide)⟩

theorem content_create_validates_witness :
    Content.create demoBadProps 0 = Result.err DomainError.invalidInput ∧
    (∃ c, Content.create demoGoodProps 0 = Result.ok c) :=
  ⟨(content_create_validates demoBadProps 0).2 (Or.inl (by decide)),
   (content_create_validates demoGoodProps 0).1.mpr
     ⟨by decide, by decide, by decide⟩⟩

/-- C1. On every repository state: `softDelete` succeeds exactly when the
backing map stores a record under the id whose state is published, `delete`
exactly when it stores one whose state is not published; on an absent id both
fail with `NotFound`; a stored non-published record makes `softDelete` fail
with `InvalidOperation` and a stored published record makes `delete` fail
with `InvalidOperation`. -/
theorem softDelete_delete_guards :
    ∀ (r : InMemoryContentRepository) (id : String),
      ((r.softDelete id).1 = Result.ok () ↔
        (∃ c, r.getStored id = some c ∧ c.state = .published)) ∧
      ((r.delete id).1 = Result.ok () ↔
        (∃ c, r.getStored id = some c ∧ c.state ≠ .published)) ∧
      (r.getStored id = none →
        (r.softDelete id).1 = Result.err DomainError.notFound ∧
        (r.delete id).1 = Result.err DomainError.notFound) ∧
      (∀ c, r.getStored id = some c → c.state ≠ .published →
        (r.softDelete id).1 = Result.err DomainError.invalidOperation) ∧
      (∀ c, r.getStored id = some c → c.state = .published →
        (r.delete id).1 = Result.err DomainError.invalidOperation) := by
  intro r id
  unfold InMemoryContentRepository.softDelete InMemoryContentRepository.delete
  cases hg : r.getStored id with
  | none => simp [hg]
  | some c =>
    cases hp : c.state.isPublished with
    | false =>
      have hne : c.state ≠ .published := (isPublished_false_iff_ne c.state).mp hp
      simp [hg, hp, hne]
    | true =>
      have heq : c.state = .published := (isPublished_iff_eq c.state).mp hp
      simp [hg, hp, heq, ContentState.isPublished]

/-- Witness for C1: in `demoRepo`, soft-deleting the draft `c1` and hard-
deleting the published `c2` fail with `InvalidOperation`, and both operations
fail with `NotFound` on the absent id `zz`. -/
theorem softDelete_delete_guards_witness :
    (demoRepo.softDelete "zz").1 = Result.err DomainError.notFound ∧
    (demoRepo.delete "zz").1 = Result.err DomainError.notFound ∧
    (demoRepo.softDelete "c1").1 = Result.err DomainError.invalidOperation ∧
    (demoRepo.delete "c2").1 = Result.err DomainError.invalidOperation :=
  ⟨((softDelete_delete_guards demoRepo "zz").2.2.1 (by rfl)).1,
   ((softDelete_delete_guards demoRepo "zz").2.2.1 (by rfl)).2,
   (softDelete_delete_guards demoRepo "c1").2.2.2.1 demoDraft (by rfl)
     (by decide),
   (softDelete_delete_guards demoRepo "c2").2.2.2.2 demoPublished (by rfl)
     (by rfl)⟩

/-- C8. On every repository state, `findFeatured` returns at most 5 records,
each of them non-deleted and in state published, ordered by `publishedAt`
descending with missing `publishedAt` keyed as 0 — hence sorted as oldest. -/
theorem findFeatured_spec :
    ∀ r : InMemoryContentRepository,
      r.findFeatured.length ≤ 5 ∧
      r.findFeatured.all
        (fun c => !(r.deleted.contains c.id) && c.state.isPublished) = true ∧
      List.Pairwise InMemoryContentRepository.featRel r.findFeatured := by
  intro r
  refine ⟨?_, ?_, ?_⟩
  · exact List.length_take_le 5 _
  · rw [List.all_eq_true]
    intro c hc
    have h1 : c ∈ r.findPublishedAll.insertionSort
        InMemoryContentRepository.featRel :=
      List.take_subset 5 _ hc
    have h2 : c ∈ r.findPublishedAll :=
      (List.mem_insertionSort InMemoryContentRepository.featRel).mp h1
    unfold InMemoryContentRepository.findPublishedAll at h2
    have h3 := List.mem_filter.mp h2
    have h4 := List.mem_filter.mp h3.1
    rw [Bool.and_eq_true]
    exact ⟨h4.2, h3.2⟩
  · exact List.Pairwise.sublist (List.take_sublist 5 _)
      (List.sorted_insertionSort InMemoryContentRepository.featRel _)

/-- C5. `updateContent` writes the repository only on overall success: any
failure returns it unchanged, while a success performs exactly one `save` of
the returned entity, which is the outcome of the title-body-excerpt pipeline
(`applyUpdates`) run on the looked-up record under a single `canEdit` check.
Conversely, on an existing permitted content the call propagates a failing
field update as exactly that failure with no write, and a fully successful
pipeline yields exactly its outcome together with the one save. -/
theorem updateContent_single_save :
    ∀ (r : InMemoryContentRepository) (id : String) (u : ContentUpdates)
      (userId userRole : String) (now : Nat),
      (∀ e, (ContentService.updateContent r id u userId userRole now).1 =
          Result.err e →
        (ContentService.updateContent r id u userId userRole now).2 = r) ∧
      (∀ c, (ContentService.updateContent r id u userId userRole now).1 =
          Result.ok c →
        (ContentService.updateContent r id u userId userRole now).2 = r.save c ∧
        ∃ c0, r.findById id = Result.ok (some c0) ∧
          DefaultContentPermissions.canEdit c0 userId userRole = true ∧
          ContentService.applyUpdates c0 u now = Result.ok c) ∧
      (∀ c0, r.findById id = Result.ok (some c0) →
        DefaultContentPermissions.canEdit c0 userId userRole = true →
        (∀ e, ContentService.applyUpdates c0 u now = Result.err e →
          ContentService.updateContent r id u userId userRole now =
            (Result.err e, r)) ∧
        (∀ c, ContentService.applyUpdates c0 u now = Result.ok c →
          ContentService.updateContent r id u userId userRole now =
            (Result.ok c, r.save c))) := by
  intro r id u userId userRole now
  obtain ⟨v, hf⟩ : ∃ v, r.findById id = v := ⟨_, rfl⟩
  cases v with
  | err e0 =>
    have hmain : ContentService.updateContent r id u userId userRole now =
        (Result.err e0, r) := by
      simp [ContentService.updateContent, hf]
    refine ⟨fun e2 _ => by rw [hmain], fun c hc => ?_, fun c0' hf0 _ => ?_⟩
    · rw [hmain] at hc
      exact absurd hc (by simp)
    · rw [hf] at hf0
      exact absurd hf0 (by simp)
  | ok vv =>
    cases vv with
    | none =>
      have hmain : ContentService.updateContent r id u userId userRole now =
          (Result.err DomainError.notFound, r) := by
        simp [ContentService.updateContent, hf]
      refine ⟨fun e2 _ => by rw [hmain], fun c hc => ?_, fun c0' hf0 _ => ?_⟩
      · rw [hmain] at hc
        exact absurd hc (by simp)
      · rw [hf] at hf0
        exact absurd hf0 (by simp)
    | some c0 =>
      cases hperm : DefaultContentPermissions.canEdit c0 userId userRole with
      | false =>
        have hmain : ContentService.updateContent r id u userId userRole now =
            (Result.err DomainError.permissionDenied, r) := by
          simp [ContentService.updateContent, hf, hperm]
        refine ⟨fun e2 _ => by rw [hmain], fun c hc => ?_,
          fun c0' hf0 hperm' => ?_⟩
        · rw [hmain] at hc
          exact absurd hc (by simp)
        · rw [hf] at hf0
          have hc0 : c0' = c0 := by simpa using hf0.symm
          subst hc0
          rw [hperm] at hperm'
          exact absurd hperm' (by simp)
      | true =>
        cases hap : ContentService.applyUpdates c0 u now with
        | err e =>
          have hmain : ContentService.updateContent r id u userId userRole
              now = (Result.err e, r) := by
            simp [ContentService.updateContent, hf, hperm, hap]
          refine ⟨fun e2 _ => by rw [hmain], fun c hc => ?_,
            fun c0' hf0 hperm' => ?_⟩
          · rw [hmain] at hc
            exact absurd hc (by simp)
          · rw [hf] at hf0
            have hc0 : c0' = c0 := by simpa using hf0.symm
            subst hc0
            refine ⟨fun e2 he2 => ?_, fun c hc => ?_⟩
            · rw [hap] at he2
              have he : e = e2 := by simpa using he2
              subst he
              exact hmain
            · rw [hap] at hc
              exact absurd hc (by simp)
        | ok c1 =>
          have hmain : ContentService.updateContent r id u userId userRole
              now = (Result.ok c1, r.save c1) := by
            simp [ContentService.updateContent, hf, hperm, hap]
          refine ⟨fun e2 he2 => ?_, fun c hc => ?_, fun c0' hf0 hperm' => ?_⟩
          · rw [hmain] at he2
            exact absurd he2 (by simp)
          · rw [hmain] at hc
            have hcc : c1 = c := by simpa using hc
            subst hcc
            exact ⟨by rw [hmain], c0, hf, hperm, hap⟩
          · rw [hf] at hf0
            have hc0 : c0' = c0 := by simpa using hf0.symm
            subst hc0
            refine ⟨fun e2 he2 => ?_, fun c hc => ?_⟩
            · rw [hap] at he2
              exact absurd he2 (by simp)
            · rw [hap] at hc
              have hcc : c1 = c := by simpa using hc
              subst hcc
              exact hmain

set_option maxRecDepth 8192 in
/-- Witness for C5: retitling the stored draft `c1` succeeds and leaves the
repository equal to a single save of the retitled entity, while a 2-character
title makes the call return exactly the pipeline's `InvalidInput` with the
repository unchanged. -/
theorem updateContent_single_save_witness :
    (ContentService.updateContent demoRepo "c1"
      ⟨some "Better Title", none, none⟩ "user-1" "Author" 7).2 =
        demoRepo.save demoDraftRetitled ∧
    ContentService.updateContent demoRepo "c1" ⟨some "Hi", none, none⟩
        "user-1" "Author" 7 =
      (Result.err DomainError.invalidInput, demoRepo) :=
  ⟨((updateContent_single_save demoRepo "c1" ⟨some "Better Title", none, none⟩
      "user-1" "Author" 7).2.1 demoDraftRetitled (by decide)).1,
   ((updateContent_single_save demoRepo "c1" ⟨some "Hi", none, none⟩
      "user-1" "Author" 7).2.2 demoDraft (by rfl) (by rfl)).1
     DomainError.invalidInput (by decide)⟩

lemma saveAll_deleted (cs : List Content) :
    ∀ r : InMemoryContentRepository,
      (r.saveAll cs).deleted = r.deleted := by
  induction cs with
  | nil => intro r; rfl
  | cons c cs ih =>
    intro r
    exact ih (r.save c)

lemma contains_addDeleted (l : List String) (id : String) :
    (InMemoryContentRepository.addDeleted l id).contains id = true := by
  unfold InMemoryContentRepository.addDeleted
  split
  · assumption
  · simp

/-- C9. Once `softDelete` has succeeded on an id, any sequence of later saves
leaves the tombstone in place: `findById` keeps returning null-success and
`exists` keeps returning false, because `save` never removes the id from the
tombstone set. -/
theorem softDelete_tombstone_forever :
    ∀ (r : InMemoryContentRepository) (id : String),
      (r.softDelete id).1 = Result.ok () →
      ∀ cs : List Content,
        (((r.softDelete id).2).saveAll cs).findById id = Result.ok none ∧
        (((r.softDelete id).2).saveAll cs).existsId id = false := by
  intro r id h cs
  have hdel : ((r.softDelete id).2).deleted.contains id = true := by
    unfold InMemoryContentRepository.softDelete at h ⊢
    cases hg : r.getStored id with
    | none => simp [hg] at h
    | some c =>
      simp only [hg] at h ⊢
      cases hp : c.state.isPublished with
      | false => simp [hp] at h
      | true =>
        simp only [hp, Bool.not_true, Bool.false_eq_true, if_false]
        exact contains_addDeleted r.deleted id
  have hdel2 : (((r.softDelete id).2).saveAll cs).deleted.contains id = true := by
    rw [saveAll_deleted cs]
    exact hdel
  constructor
  · unfold InMemoryContentRepository.findById
    rw [if_pos hdel2]
  · unfold InMemoryContentRepository.existsId
    rw [hdel2]
    simp

/-- Witness for C9: after soft-deleting the published `c2` and re-saving the
very same content, `findById` still returns null-success and `exists` false. -/
theorem softDelete_tombstone_forever_witness :
    ((InMemoryContentRepository.saveAll (demoRepo.softDelete "c2").2
        [demoPublished]).findById "c2" = Result.ok none) ∧
    ((InMemoryContentRepository.saveAll (demoRepo.softDelete "c2").2
        [demoPublished]).existsId "c2" = false) :=
  softDelete_tombstone_forever demoRepo "c2" (by rfl) [demoPublished]

lemma applyOptField_dropEmptyField
    (step : Content → String → Result Content DomainError)
    (o : Option String) (c : Content) :
    ContentService.applyOptField step (dropEmptyField o) c =
      ContentService.applyOptField step o c := by
  cases o with
  | none => rfl
  | some s =>
    cases hs : (s == "") with
    | true => simp [dropEmptyField, ContentService.applyOptField, hs]
    | false => simp [dropEmptyField, ContentService.applyOptField, hs]

lemma applyUpdates_dropEmpty (c : Content) (u : ContentUpdates) (now : Nat) :
    ContentService.applyUpdates c (dropEmpty u) now =
      ContentService.applyUpdates c u now := by
  unfold ContentService.applyUpdates dropEmpty
  simp only [applyOptField_dropEmptyField]

lemma updateBody_preserves_title {c : Content} {s : String} {now : Nat}
    {c' : Content} (h : c.updateBody s now = Result.ok c') :
    c'.title = c.title := by
  unfold Content.updateBody at h
  split at h
  · exact absurd h (by simp)
  · cases h
    rfl

lemma updateExcerpt_preserves_title {c : Content} {s : String} {now : Nat}
    {c' : Content} (h : c.updateExcerpt s now = Result.ok c') :
    c'.title = c.title := by
  unfold Content.updateExcerpt at h
  cases h
  rfl

lemma applyOptField_body_title {c c' : Content} {o : Option String} {now : Nat}
    (h : ContentService.applyOptField (fun c s => c.updateBody s now) o c =
      Result.ok c') :
    c'.title = c.title := by
  unfold ContentService.applyOptField at h
  cases o with
  | none =>
    cases h
    rfl
  | some s =>
    cases hbeq : (s == "") with
    | true =>
      simp only [hbeq, if_true] at h
      cases h
      rfl
    | false =>
      simp only [hbeq, Bool.false_eq_true, if_false] at h
      exact updateBody_preserves_title h

lemma applyOptField_excerpt_title {c c' : Content} {o : Option String} {now : Nat}
    (h : ContentService.applyOptField (fun c s => c.updateExcerpt s now) o c =
      Result.ok c') :
    c'.title = c.title := by
  unfold ContentService.applyOptField at h
  cases o with
  | none =>
    cases h
    rfl
  | some s =>
    cases hbeq : (s == "") with
    | true =>
      simp only [hbeq, if_true] at h
      cases h
      rfl
    | false =>
      simp only [hbeq, Bool.false_eq_true, if_false] at h
      exact updateExcerpt_preserves_title h

lemma applyUpdates_skipped_title {c c' : Content} {u : ContentUpdates}
    {now : Nat} (ht : u.title = none ∨ u.title = some "")
    (h : ContentService.applyUpdates c u now = Result.ok c') :
    c'.title = c.title := by
  unfold ContentService.applyUpdates at h
  have h1 : ContentService.applyOptField (fun c s => c.updateTitle s now)
      u.title c = Result.ok c := by
    rcases ht with ht | ht <;> simp [ht, ContentService.applyOptField]
  simp only [h1] at h
  cases hb : ContentService.applyOptField (fun c s => c.updateBody s now)
      u.body c with
  | err e =>
    simp only [hb] at h
    exact absurd h (by simp)
  | ok c2 =>
    simp only [hb] at h
    rw [applyOptField_excerpt_title h]
    exact applyOptField_body_title hb

/-- C10. In `updateContent`, a field supplied as the empty string behaves
exactly like an absent field (it is skipped, not validated or applied): the
whole call is unchanged under dropping empty-string fields, and a call with
an empty title that succeeds returns an entity whose title is the stored
record's title, while the remaining non-empty fields are still applied and
persisted as in any other call. -/
theorem updateContent_empty_field_skipped :
    ∀ (r : InMemoryContentRepository) (id : String) (u : ContentUpdates)
      (userId userRole : String) (now : Nat),
      ContentService.updateContent r id u userId userRole now =
        ContentService.updateContent r id (dropEmpty u) userId userRole now ∧
      (∀ (b e : Option String) (c : Content),
        (ContentService.updateContent r id ⟨some "", b, e⟩ userId userRole
            now).1 = Result.ok c →
        ∃ c0, r.findById id = Result.ok (some c0) ∧ c.title = c0.title) := by
  intro r id u userId userRole now
  constructor
  · unfold ContentService.updateContent
    simp only [applyUpdates_dropEmpty]
  · intro b e c hc
    unfold ContentService.updateContent at hc
    cases hf : r.findById id with
    | err e2 => simp [hf] at hc
    | ok v =>
      cases v with
      | none => simp [hf] at hc
      | some c0 =>
        simp only [hf] at hc
        cases hperm : DefaultContentPermissions.canEdit c0 userId userRole with
        | false => simp [hperm] at hc
        | true =>
          simp only [hperm, Bool.not_true, Bool.false_eq_true, if_false] at hc
          cases hap : ContentService.applyUpdates c0 ⟨some "", b, e⟩ now with
          | err e3 => rw [hap] at hc; exact absurd hc (by simp)
          | ok c1 =>
            rw [hap] at hc
            have hc1 : c1 = c := by simpa using hc
            subst hc1
            exact ⟨c0, rfl, applyUpdates_skipped_title (Or.inr rfl) hap⟩

set_option maxRecDepth 8192 in
/-- Witness for C10: on `demoRepo`, an update of `c1` whose title field is the
empty string equals the update with no title field at all, and its successful
result keeps the stored title. -/
theorem updateContent_empty_field_skipped_witness :
    (ContentService.updateContent demoRepo "c1" ⟨some "", none, none⟩
        "user-1" "Author" 9 =
      ContentService.updateContent demoRepo "c1" ⟨none, none, none⟩
        "user-1" "Author" 9) ∧
    (∃ c0, demoRepo.findById "c1" = Result.ok (some c0) ∧
      demoDraft.title = c0.title) := by
  have h := updateContent_empty_field_skipped demoRepo "c1"
    ⟨some "", none, none⟩ "user-1" "Author" 9
  exact ⟨h.1, h.2 none none demoDraft (by decide)⟩

end CMS
